import Mathlib

/-!
# Verification of the DDPG agent core (`ddpg/ddpg.py`, `ddpg/utils.py`)

A shallow embedding of the training core of a DDPG reinforcement-learning
agent.  Machine floats are modelled as rationals (`ℚ`), float vectors as
`List ℚ`, and the agent's mutable instance state as explicit state passing
on a `DDPG` structure.  The actor/critic networks live in `model.py`
(outside the verified sources) and are treated as opaque functions passed
as parameters; the Ornstein-Uhlenbeck noise sample is likewise an oracle
input to `select_action`.  The replay buffer lives in `memory.py` (also
outside the verified sources) and is modelled from the spec.
-/

namespace DDPGCore

/-- `np.clip(x, lo, hi)` on one component: `min(hi, max(lo, x))`. -/
def clip (x lo hi : ℚ) : ℚ := min (max x lo) hi

/-- One transition record, the five-element list
`[last_state, last_action, reward, state, done]` appended by
`DDPG.observe` in `ddpg.py`. -/
structure Transition where
  state : List ℚ
  action : List ℚ
  reward : ℚ
  next_state : List ℚ
  done : Bool
deriving Repr, DecidableEq

/-- Modelled from the spec: `memory.py` (`ReplayBuffer`), imported by
`ddpg.py` but not among the verified sources.  "Ordered circular sequence
of Transition with fixed capacity C"; the data is kept as the list of the
logically oldest to newest stored transitions. -/
structure ReplayBuffer where
  capacity : ℕ
  data : List Transition
deriving Repr, DecidableEq

/-- Modelled from the spec: `ReplayBuffer` is "created empty at agent
construction". -/
def ReplayBuffer.emptyBuf (c : ℕ) : ReplayBuffer := ⟨c, []⟩

/-- Modelled from the spec: `append(transition)` — "overwrites oldest slot
when full.  No error condition." (FIFO eviction under capacity pressure). -/
def ReplayBuffer.append (m : ReplayBuffer) (t : Transition) : ReplayBuffer :=
  ⟨m.capacity, (m.data ++ [t]).drop (m.data.length + 1 - m.capacity)⟩

/-- Modelled from the spec: `sampleBatch(n)` "draws n transitions with
replacement uniformly at random from current contents" and "Fails with
InsufficientDataError if current size is 0".  The random draws are an
oracle `draws : ℕ → ℕ`, reduced modulo the current size. -/
def ReplayBuffer.sample_batch (m : ReplayBuffer) (n : ℕ) (draws : ℕ → ℕ) :
    Except String (List Transition) :=
  if h : m.data.length = 0 then
    .error "InsufficientDataError"
  else
    .ok ((List.range n).map fun i =>
      m.data.get ⟨draws i % m.data.length, Nat.mod_lt _ (Nat.pos_of_ne_zero h)⟩)

/-- `utils.soft_update(target, source, tau)`: for each zipped parameter
pair, `target_param.data ← target_param.data·(1−tau) + param.data·tau`;
target parameters beyond the zipped prefix are untouched. -/
def soft_update (target source : List ℚ) (tau : ℚ) : List ℚ :=
  ((target.zip source).map fun p => p.1 * (1 - tau) + p.2 * tau) ++
    target.drop source.length

/-- `utils.hard_update(target, source)`: for each zipped parameter pair,
`target_param.data ← param.data`; target parameters beyond the zipped
prefix are untouched. -/
def hard_update (target source : List ℚ) : List ℚ :=
  ((target.zip source).map fun p => p.2) ++ target.drop source.length

/-- The formal parameter list of `utils.to_tensor`, which is defined as
`def to_tensor(ndarray):` — a single positional parameter and no
`device` parameter. -/
def to_tensor_params : List String := ["ndarray"]

/-- Python call binding for a function with parameter list `params`
(no defaults, no `*args`/`**kwargs`), called with `n_pos` positional
arguments and the keyword arguments `kw`: reproduces CPython's
`TypeError` conditions in order. -/
def bind_call (params : List String) (n_pos : ℕ) (kw : List String) :
    Except String Unit :=
  if params.length < n_pos then .error "TypeError: too many positional arguments"
  else if kw.any fun k => ¬ params.contains k then
    .error "TypeError: unexpected keyword argument"
  else if kw.any fun k => (params.take n_pos).contains k then
    .error "TypeError: multiple values for argument"
  else if (params.drop n_pos).any fun p => ¬ kw.contains p then
    .error "TypeError: missing required argument"
  else .ok ()

/-- The `to_tensor(np.array([state]), device=device)` call made first in
`DDPG.select_action`: one positional argument and the keyword `device`. -/
def select_action_to_tensor_call : Except String Unit :=
  bind_call to_tensor_params 1 ["device"]

/-- The `to_tensor(next_state_batch, device=device)` call made in
`DDPG.update_policy` when computing the target Q value: one positional
argument and the keyword `device`. -/
def update_policy_to_tensor_call : Except String Unit :=
  bind_call to_tensor_params 1 ["device"]

/-- What `select_action` returns: the continuous clipped action vector,
or `action.argmax()` when `self.discrete`. -/
inductive ActionOut where
  | cont (a : List ℚ)
  | disc (i : ℕ)
deriving Repr, DecidableEq

/-- `np.argmax` over a vector: index of the maximum component, lowest
index on exact ties (`0` on the empty vector). -/
def argmax (l : List ℚ) : ℕ :=
  (l.enum.foldl (fun best p => if p.2 > best.2 then p else best) (0, l.headD 0)).1

/-- The mutable instance state of the `DDPG` agent that the verified
operations touch.  Network parameter vectors stand for the state dicts of
the four networks; the networks' forward functions are opaque and passed
separately where needed. -/
structure DDPG where
  discrete : Bool
  epsilon : ℚ
  epsilon_decay : ℚ
  tau : ℚ
  discount : ℚ
  last_state : List ℚ
  last_action : List ℚ
  memory : ReplayBuffer
  actor_params : List ℚ
  actor_target_params : List ℚ
  critic_params : List ℚ
  critic_target_params : List ℚ
deriving Repr, DecidableEq

/-- `DDPG.observe(reward, state, done)`: appends
`[last_state, last_action, reward, state, done]` to the replay memory,
then sets `last_state = state`. -/
def DDPG.observe (a : DDPG) (reward : ℚ) (state : List ℚ) (done : Bool) : DDPG :=
  { a with
    memory := a.memory.append ⟨a.last_state, a.last_action, reward, state, done⟩
    last_state := state }

/-- `DDPG.select_action(state, exploration_noise, exploration_decay)`.
`raw` stands for `to_numpy(self.actor(...)).squeeze(0)` (the actor's raw
output on `state`) and `noise` for `self.noise.sample()`; both are oracle
inputs because the actor network and the stochastic noise process are
external.  The effective weight is computed from `epsilon` before the
decay step; the blended action is clipped to `[-1, 1]` componentwise and
recorded as `last_action`; the return value is `argmax` of it when
`discrete`. -/
def DDPG.select_action (a : DDPG) (raw noise : List ℚ)
    (exploration_noise : ℚ) (exploration_decay : Bool) : ActionOut × DDPG :=
  let w := exploration_noise * max a.epsilon 0
  let eps' := if exploration_decay then a.epsilon - a.epsilon_decay else a.epsilon
  let action := (raw.zip noise).map fun p => clip (p.1 * (1 - w) + p.2 * w) (-1) 1
  (if a.discrete then .disc (argmax action) else .cont action,
   { a with epsilon := eps', last_action := action })

/-- `DDPG.load_model(output, num)`: loads the actor state dict from
`'{}/actor{}.pkl'` into both `actor` and `actor_target`, and the critic
state dict from `'{}/critic{}.pkl'` into both `critic` and
`critic_target`.  `stored_actor` / `stored_critic` stand for the contents
of those two files. -/
def DDPG.load_model (a : DDPG) (stored_actor stored_critic : List ℚ) : DDPG :=
  { a with
    actor_params := stored_actor
    actor_target_params := stored_actor
    critic_params := stored_critic
    critic_target_params := stored_critic }

/-- `DDPG.__init__` fields relevant to the exploration state:
`self.epsilon = 1.`, `self.epsilon_decay = 1. / args.epsilon_decay`,
`self.memory = ReplayBuffer(args.memory_size)`. -/
def DDPG.init (discrete : Bool) (memory_size epsilon_decay_arg : ℕ)
    (tau discount : ℚ) : DDPG :=
  { discrete := discrete
    epsilon := 1
    epsilon_decay := 1 / (epsilon_decay_arg : ℚ)
    tau := tau
    discount := discount
    last_state := []
    last_action := []
    memory := ReplayBuffer.emptyBuf memory_size
    actor_params := []
    actor_target_params := []
    critic_params := []
    critic_target_params := [] }

/-- `n` consecutive `select_action(..., exploration_decay=True)` calls,
keeping only the evolving agent state (actor output and noise are
irrelevant to the epsilon recurrence). -/
def decay_run (a : DDPG) : ℕ → DDPG
  | 0 => a
  | n + 1 => ((decay_run a n).select_action [] [] 0 true).2

/-! ## Autograd dependency tracking for `update_policy`

`update_policy` computes its learning target with
`target_q_batch.detach()`; to state "no gradient flows into the target
parameters" we track, alongside each tensor's value, the set of network
parameter groups that its autograd graph reaches.  `detach` keeps the
value and empties the set, exactly as in the source. -/

/-- The four parameter groups of the agent's networks. -/
inductive ParamGroup where
  | actor
  | actorTarget
  | critic
  | criticTarget
deriving Repr, DecidableEq

/-- A scalar tensor: its value and the parameter groups its gradient
reaches. -/
structure TScalar where
  val : ℚ
  deps : List ParamGroup
deriving Repr, DecidableEq

/-- A vector tensor: its componentwise values and the parameter groups
its gradient reaches. -/
structure TVec where
  vals : List ℚ
  deps : List ParamGroup
deriving Repr, DecidableEq

/-- A constant (leaf, non-parameter) vector tensor, as produced by
`to_tensor` on a numpy batch. -/
def TVec.const (v : List ℚ) : TVec := ⟨v, []⟩

/-- A constant (leaf, non-parameter) scalar tensor. -/
def TScalar.const (x : ℚ) : TScalar := ⟨x, []⟩

/-- Scalar tensor addition. -/
def TScalar.add (a b : TScalar) : TScalar := ⟨a.val + b.val, a.deps ++ b.deps⟩

/-- Scalar tensor multiplication. -/
def TScalar.mul (a b : TScalar) : TScalar := ⟨a.val * b.val, a.deps ++ b.deps⟩

/-- Scalar tensor subtraction. -/
def TScalar.sub (a b : TScalar) : TScalar := ⟨a.val - b.val, a.deps ++ b.deps⟩

/-- Scalar tensor negation. -/
def TScalar.neg (a : TScalar) : TScalar := ⟨-a.val, a.deps⟩

/-- `.detach()`: same value, gradient cut from every parameter. -/
def TScalar.detach (a : TScalar) : TScalar := ⟨a.val, []⟩

/-- Mean of a batch of scalar tensors (the gradient reaches everything
the summands reach). -/
def TScalar.meanBatch (l : List TScalar) : TScalar :=
  ⟨(l.map TScalar.val).sum / (l.length : ℚ), l.foldr (fun a d => a.deps ++ d) []⟩

/-- Applying a network whose forward map is `f` and whose parameters form
group `g` to a vector tensor: the output value is `f` of the input value,
and the gradient reaches `g` plus everything the input reaches. -/
def applyActorNet (g : ParamGroup) (f : List ℚ → List ℚ) (x : TVec) : TVec :=
  ⟨f x.vals, g :: x.deps⟩

/-- Applying a critic network (forward map `f`, parameter group `g`) to a
state/action pair of vector tensors. -/
def applyCriticNet (g : ParamGroup) (f : List ℚ → List ℚ → ℚ)
    (s a : TVec) : TScalar :=
  ⟨f s.vals a.vals, g :: (s.deps ++ a.deps)⟩

/-- One sampled batch, the five column-aligned sequences returned by
`sample_batch`. -/
structure Batch where
  state_batch : List (List ℚ)
  action_batch : List (List ℚ)
  reward_batch : List ℚ
  next_state_batch : List (List ℚ)
  terminal_batch : List Bool
deriving Repr, DecidableEq

/-- `terminal_batch.astype(np.float)` on one flag. -/
def boolToQ (b : Bool) : ℚ := if b then 1 else 0

/-- What one `DDPG.update_policy` call produces, beyond the two opaque
optimizer steps: the target Q batch, the critic loss, the actor loss, and
the two soft-updated target parameter vectors. -/
structure UpdateResult where
  target_q_batch : List TScalar
  critic_loss : TScalar
  actor_loss : TScalar
  actor_target_params : List ℚ
  critic_target_params : List ℚ
deriving Repr, DecidableEq

/-- `DDPG.update_policy` on an already-sampled batch `b`.  The four
network forward maps are opaque parameters (`model.py` is external);
`actor_f`/`critic_f` etc. give per-example outputs.  The definition
mirrors the source line by line: the target value
`reward + discount * (1 - terminal) * critic_target(s', actor_target(s'))`,
the critic MSE loss against the detached target, the actor loss
`-critic(s, actor(s)).mean()`, and the two final `soft_update` calls. -/
def DDPG.update_policy (a : DDPG)
    (actor_f actor_target_f : List ℚ → List ℚ)
    (critic_f critic_target_f : List ℚ → List ℚ → ℚ)
    (b : Batch) : UpdateResult :=
  let next_q_values : List TScalar := b.next_state_batch.map fun s' =>
    applyCriticNet .criticTarget critic_target_f (TVec.const s')
      (applyActorNet .actorTarget actor_target_f (TVec.const s'))
  let target_q_batch : List TScalar :=
    List.zipWith (fun (r : ℚ) (p : Bool × TScalar) =>
        (TScalar.const r).add
          (((TScalar.const a.discount).mul
            (TScalar.const (1 - boolToQ p.1))).mul p.2))
      b.reward_batch (b.terminal_batch.zip next_q_values)
  let q_batch : List TScalar :=
    List.zipWith (fun s act =>
        applyCriticNet .critic critic_f (TVec.const s) (TVec.const act))
      b.state_batch b.action_batch
  let critic_loss : TScalar :=
    TScalar.meanBatch (List.zipWith (fun q y =>
        (q.sub y.detach).mul (q.sub y.detach)) q_batch target_q_batch)
  let actor_loss : TScalar :=
    (TScalar.meanBatch (b.state_batch.map fun s =>
        applyCriticNet .critic critic_f (TVec.const s)
          (applyActorNet .actor actor_f (TVec.const s)))).neg
  { target_q_batch := target_q_batch
    critic_loss := critic_loss
    actor_loss := actor_loss
    actor_target_params := soft_update a.actor_target_params a.actor_params a.tau
    critic_target_params := soft_update a.critic_target_params a.critic_params a.tau }

/-! ## Theorems -/

/-- C2: every call to `select_action` and every call to `update_policy`
fails before producing a result: each passes a `device` keyword argument
to `to_tensor`, whose definition accepts only the single parameter
`ndarray`, so CPython's call binding raises a `TypeError` (unexpected
keyword argument) for every input — the binding error depends only on the
argument shape, never on the argument values. -/
theorem to_tensor_device_call_fails :
    select_action_to_tensor_call =
      Except.error "TypeError: unexpected keyword argument" ∧
    update_policy_to_tensor_call =
      Except.error "TypeError: unexpected keyword argument" := by
  constructor <;> rfl

/-- C10: after every `load_model` call, the actor-target's parameters
equal the actor's parameters and the critic-target's parameters equal the
critic's parameters, because both members of each pair are loaded from
the same serialized state dict. -/
theorem load_model_resyncs_targets (a : DDPG) (stored_actor stored_critic : List ℚ) :
    (a.load_model stored_actor stored_critic).actor_target_params =
      (a.load_model stored_actor stored_critic).actor_params ∧
    (a.load_model stored_actor stored_critic).critic_target_params =
      (a.load_model stored_actor stored_critic).critic_params :=
  ⟨rfl, rfl⟩

/-- C5: `soft_update target source tau` sets the `i`-th target parameter
(for each zipped pair) to `target_i·(1−tau) + source_i·tau`; with
`tau = 1` it coincides with `hard_update target source`, and with
`tau = 0` the target is unchanged. -/
theorem soft_update_formula_and_boundaries (target source : List ℚ) (tau : ℚ) :
    (∀ i, i < target.length → i < source.length →
        (soft_update target source tau).getD i 0 =
          target.getD i 0 * (1 - tau) + source.getD i 0 * tau) ∧
    soft_update target source 1 = hard_update target source ∧
    soft_update target source 0 = target := by
  refine ⟨?_, ?_, ?_⟩
  · intro i hit his
    induction target generalizing source i with
    | nil => simp at hit
    | cons t ts ih =>
      cases source with
      | nil => simp at his
      | cons s ss =>
        cases i with
        | zero => simp [soft_update]
        | succ j =>
          have hjt : j < ts.length := by simpa using hit
          have hjs : j < ss.length := by simpa using his
          simpa [soft_update] using ih ss j hjt hjs
  · induction target generalizing source with
    | nil => cases source <;> rfl
    | cons t ts ih =>
      cases source with
      | nil => rfl
      | cons s ss => simp [soft_update, hard_update, ih ss]
  · induction target generalizing source with
    | nil => cases source <;> rfl
    | cons t ts ih =>
      cases source with
      | nil => rfl
      | cons s ss => simpa [soft_update] using ih ss

/-- Witness for C5 at a concrete parameter pair. -/
theorem soft_update_formula_witness :
    (soft_update [(3 : ℚ), 5] [7, 11] (1/2)).getD 0 0 =
      (3 : ℚ) * (1 - 1/2) + 7 * (1/2) :=
  (soft_update_formula_and_boundaries [(3 : ℚ), 5] [7, 11] (1/2)).1 0
    (by decide) (by decide)

/-- C6: every `observe reward state done` call appends the record
`(last_state, last_action, reward, state, done)` to the replay memory
(in particular, while the buffer is below capacity, the stored data grows
by exactly that record at the end) and then sets `last_state` to `state`,
leaving `last_action` untouched. -/
theorem observe_appends_and_advances (a : DDPG) (reward : ℚ) (state : List ℚ)
    (done : Bool) :
    (a.observe reward state done).memory =
      a.memory.append ⟨a.last_state, a.last_action, reward, state, done⟩ ∧
    (a.memory.data.length < a.memory.capacity →
      (a.observe reward state done).memory.data =
        a.memory.data ++ [⟨a.last_state, a.last_action, reward, state, done⟩]) ∧
    (a.observe reward state done).last_state = state ∧
    (a.observe reward state done).last_action = a.last_action := by
  refine ⟨rfl, ?_, rfl, rfl⟩
  intro hlt
  have h0 : a.memory.data.length + 1 - a.memory.capacity = 0 := by omega
  simp [DDPG.observe, ReplayBuffer.append, h0]

/-- Witness for C6 on a concrete agent below capacity. -/
theorem observe_appends_witness :
    ((DDPG.init false 4 10 (1/100) (99/100)).observe 2 [5] false).memory.data =
      [] ++ [⟨[], [], 2, [5], false⟩] :=
  (observe_appends_and_advances (DDPG.init false 4 10 (1/100) (99/100)) 2 [5]
    false).2.1 (by decide)

/-- Every component of a clipped vector lies in `[-1, 1]`. -/
lemma clip_mem_Icc (x : ℚ) : -1 ≤ clip x (-1) 1 ∧ clip x (-1) 1 ≤ 1 := by
  unfold clip
  constructor
  · exact le_min (le_trans (by norm_num) (le_max_right x (-1))) (by norm_num)
  · exact min_le_right _ _

/-- C1: in continuous mode (`discrete = false`), the action returned by
`select_action` is componentwise within `[-1, 1]`, for every input state
(raw actor output and noise sample), every exploration scale, and either
decay flag — `np.clip` makes this unconditional. -/
theorem select_action_output_bounded (a : DDPG) (raw noise : List ℚ)
    (exploration_noise : ℚ) (exploration_decay : Bool)
    (hcont : a.discrete = false) :
    ∃ v, (a.select_action raw noise exploration_noise exploration_decay).1 =
        ActionOut.cont v ∧ ∀ x ∈ v, -1 ≤ x ∧ x ≤ 1 := by
  refine ⟨(raw.zip noise).map fun p =>
      clip (p.1 * (1 - exploration_noise * max a.epsilon 0) +
            p.2 * (exploration_noise * max a.epsilon 0)) (-1) 1, ?_, ?_⟩
  · simp [DDPG.select_action, hcont]
  · intro x hx
    simp only [List.mem_map] at hx
    obtain ⟨p, _, rfl⟩ := hx
    exact clip_mem_Icc _

/-- Witness for C1 on a concrete agent and inputs. -/
theorem select_action_output_bounded_witness :
    ∃ v, ((DDPG.init false 4 10 (1/100) (99/100)).select_action [2, -3] [1, 1]
        (1/2) true).1 = ActionOut.cont v ∧ ∀ x ∈ v, -1 ≤ x ∧ x ≤ 1 :=
  select_action_output_bounded (DDPG.init false 4 10 (1/100) (99/100))
    [2, -3] [1, 1] (1/2) true (by decide)

/-- C3: with effective noise weight `w = exploration_noise · max(epsilon, 0)`
computed from the epsilon value held before the call's decay step, the
recorded (and, in continuous mode, returned) action is componentwise
`clip(raw·(1−w) + noise·w, −1, 1)`; the decay step happens afterwards;
and once `epsilon ≤ 0` the action is the clipped raw actor output for any
exploration scale. -/
theorem select_action_blend_formula (a : DDPG) (raw noise : List ℚ)
    (exploration_noise : ℚ) (exploration_decay : Bool) :
    ((a.select_action raw noise exploration_noise exploration_decay).2.last_action =
        (raw.zip noise).map fun p =>
          clip (p.1 * (1 - exploration_noise * max a.epsilon 0) +
                p.2 * (exploration_noise * max a.epsilon 0)) (-1) 1) ∧
    (a.discrete = false →
      (a.select_action raw noise exploration_noise exploration_decay).1 =
        ActionOut.cont
          (a.select_action raw noise exploration_noise exploration_decay).2.last_action) ∧
    ((a.select_action raw noise exploration_noise exploration_decay).2.epsilon =
        if exploration_decay then a.epsilon - a.epsilon_decay else a.epsilon) ∧
    (a.epsilon ≤ 0 → raw.length = noise.length →
      (a.select_action raw noise exploration_noise exploration_decay).2.last_action =
        raw.map fun x => clip x (-1) 1) := by
  refine ⟨rfl, fun hcont => by simp [DDPG.select_action, hcont], rfl, ?_⟩
  intro heps hlen
  have hmax : max a.epsilon 0 = 0 := max_eq_right heps
  have hfst : (raw.zip noise).map Prod.fst = raw :=
    List.map_fst_zip raw noise (le_of_eq hlen)
  calc (a.select_action raw noise exploration_noise exploration_decay).2.last_action
      = (raw.zip noise).map fun p => clip p.1 (-1) 1 := by
        simp [DDPG.select_action, hmax]
    _ = ((raw.zip noise).map Prod.fst).map fun x => clip x (-1) 1 := by
        rw [List.map_map]; rfl
    _ = raw.map fun x => clip x (-1) 1 := by rw [hfst]

/-- Witness for C3 on a concrete agent with non-positive epsilon. -/
theorem select_action_blend_formula_witness :
    ({ DDPG.init false 4 10 (1/100) (99/100) with
        epsilon := -1/10 }.select_action [2, -3] [1, 1] 7 true).2.last_action =
      [2, -3].map fun x => clip x (-1) 1 :=
  (select_action_blend_formula
    { DDPG.init false 4 10 (1/100) (99/100) with epsilon := -1/10 }
    [2, -3] [1, 1] 7 true).2.2.2 (by norm_num) (by decide)

/-- Across `n` decay-enabled `select_action` calls from a freshly
constructed agent, epsilon follows the closed form `1 − n/d` and the decay
step stays `1/d`. -/
lemma decay_run_epsilon_closed_form (d memory_size : ℕ) (discrete : Bool)
    (tau discount : ℚ) (n : ℕ) :
    (decay_run (DDPG.init discrete memory_size d tau discount) n).epsilon =
      1 - (n : ℚ) / (d : ℚ) ∧
    (decay_run (DDPG.init discrete memory_size d tau discount) n).epsilon_decay =
      1 / (d : ℚ) := by
  induction n with
  | zero => simp [decay_run, DDPG.init]
  | succ k ih =>
    obtain ⟨ih1, ih2⟩ := ih
    constructor
    · simp only [decay_run, DDPG.select_action, ih1, ih2]
      push_cast
      ring
    · simp only [decay_run, DDPG.select_action, ih2]

/-- C4: epsilon starts at `1` and each decay-enabled `select_action` call
subtracts the fixed step `1/d` with no floor, so epsilon is non-increasing
across such calls, and after exactly `d` of them (for `d > 0`) epsilon is
exactly `0` (hence certainly within floating-point tolerance of `0`). -/
theorem epsilon_linear_decay (d memory_size : ℕ) (discrete : Bool)
    (tau discount : ℚ) (hd : 0 < d) :
    (∀ n, (decay_run (DDPG.init discrete memory_size d tau discount) (n + 1)).epsilon ≤
        (decay_run (DDPG.init discrete memory_size d tau discount) n).epsilon) ∧
    (decay_run (DDPG.init discrete memory_size d tau discount) d).epsilon = 0 := by
  constructor
  · intro n
    rw [(decay_run_epsilon_closed_form d memory_size discrete tau discount (n + 1)).1,
        (decay_run_epsilon_closed_form d memory_size discrete tau discount n).1]
    have h1 : ((n : ℚ) + 1) / (d : ℚ) - (n : ℚ) / (d : ℚ) = 1 / (d : ℚ) := by
      ring
    have hdq : (0 : ℚ) ≤ 1 / (d : ℚ) :=
      div_nonneg zero_le_one (Nat.cast_nonneg d)
    push_cast
    linarith
  · rw [(decay_run_epsilon_closed_form d memory_size discrete tau discount d).1]
    have : ((d : ℚ)) ≠ 0 := Nat.cast_ne_zero.mpr (Nat.pos_iff_ne_zero.mp hd)
    field_simp

/-- Witness for C4 with decay parameter `d = 4`. -/
theorem epsilon_linear_decay_witness :
    (decay_run (DDPG.init false 6 4 (1/100) (99/100)) 4).epsilon = 0 :=
  (epsilon_linear_decay 4 6 false (1/100) (99/100) (by decide)).2

/-- A whole sequence of `append` calls, oldest first. -/
def ReplayBuffer.appendAll (m : ReplayBuffer) (ts : List Transition) : ReplayBuffer :=
  ts.foldl ReplayBuffer.append m

/-- Running a sequence of appends on a buffer within capacity keeps the
capacity and leaves exactly the newest `capacity` entries of the combined
stream. -/
lemma appendAll_data (ts : List Transition) : ∀ m : ReplayBuffer,
    m.data.length ≤ m.capacity →
    (m.appendAll ts).capacity = m.capacity ∧
    (m.appendAll ts).data =
      (m.data ++ ts).drop (m.data.length + ts.length - m.capacity) := by
  induction ts with
  | nil =>
    intro m h
    refine ⟨rfl, ?_⟩
    simp [ReplayBuffer.appendAll, Nat.sub_eq_zero_of_le h]
  | cons t ts ih =>
    intro m h
    have hstep : m.appendAll (t :: ts) = (m.append t).appendAll ts := rfl
    have hlen' : (m.append t).data.length = m.data.length + 1 -
        (m.data.length + 1 - m.capacity) := by
      simp [ReplayBuffer.append]
    have hcap' : (m.append t).capacity = m.capacity := rfl
    have hle' : (m.append t).data.length ≤ (m.append t).capacity := by
      rw [hlen', hcap']; omega
    obtain ⟨hc, hdata⟩ := ih (m.append t) hle'
    refine ⟨by rw [hstep, hc, hcap'], ?_⟩
    rw [hstep, hdata, hcap']
    have hk : m.data.length + 1 - m.capacity ≤ (m.data ++ [t]).length := by
      simp only [List.length_append, List.length_singleton]
      omega
    calc ((m.append t).data ++ ts).drop
          ((m.append t).data.length + ts.length - m.capacity)
        = ((m.data ++ [t] ++ ts).drop (m.data.length + 1 - m.capacity)).drop
            ((m.append t).data.length + ts.length - m.capacity) := by
          rw [show (m.append t).data =
                (m.data ++ [t]).drop (m.data.length + 1 - m.capacity) from rfl,
              List.drop_append_of_le_length hk]
      _ = (m.data ++ [t] ++ ts).drop ((m.data.length + 1 - m.capacity) +
            ((m.append t).data.length + ts.length - m.capacity)) := by
          rw [List.drop_drop]
      _ = (m.data ++ t :: ts).drop (m.data.length + (t :: ts).length -
            m.capacity) := by
          rw [List.append_assoc, List.singleton_append]
          congr 1
          rw [hlen']
          simp only [List.length_cons]
          omega

/-- C8: for every sequence of appends into an initially empty buffer of
capacity `C`, with more appends than `C`, the buffer's size is exactly `C`
and its contents are exactly the most recent `C` appended transitions
(FIFO eviction). -/
theorem replay_buffer_fifo (C : ℕ) (ts : List Transition) (h : C < ts.length) :
    ((ReplayBuffer.emptyBuf C).appendAll ts).data.length = C ∧
    ((ReplayBuffer.emptyBuf C).appendAll ts).data = ts.drop (ts.length - C) := by
  obtain ⟨-, hdata⟩ := appendAll_data ts (ReplayBuffer.emptyBuf C)
    (by simp [ReplayBuffer.emptyBuf])
  have hdata' : ((ReplayBuffer.emptyBuf C).appendAll ts).data =
      ts.drop (ts.length - C) := by
    simpa [ReplayBuffer.emptyBuf] using hdata
  refine ⟨?_, hdata'⟩
  rw [hdata', List.length_drop]
  omega

/-- Witness for C8: the spec's end-to-end scenario — capacity `5`, seven
transitions tagged `0..6` by their reward, contents are the last five. -/
theorem replay_buffer_fifo_witness :
    ((ReplayBuffer.emptyBuf 5).appendAll
        ((List.range 7).map fun i => ⟨[], [], (i : ℚ), [], false⟩)).data =
      ((List.range 7).map fun i =>
        (⟨[], [], (i : ℚ), [], false⟩ : Transition)).drop
          (((List.range 7).map fun i =>
            (⟨[], [], (i : ℚ), [], false⟩ : Transition)).length - 5) :=
  (replay_buffer_fifo 5
    ((List.range 7).map fun i => ⟨[], [], (i : ℚ), [], false⟩)
    (by decide)).2

/-- C9: `sample_batch n` fails with `InsufficientDataError` exactly when
the memory's current size is `0`; whenever it succeeds (size `m > 0`, any
`n` — including `n` larger than the size, since sampling is with
replacement) it returns exactly `n` transitions, each of which is one of
the stored transitions. -/
theorem sample_batch_error_and_membership (m : ReplayBuffer) (n : ℕ)
    (draws : ℕ → ℕ) :
    (m.sample_batch n draws = .error "InsufficientDataError" ↔
      m.data.length = 0) ∧
    (∀ ts, m.sample_batch n draws = .ok ts →
      ts.length = n ∧ ∀ t ∈ ts, t ∈ m.data) := by
  unfold ReplayBuffer.sample_batch
  by_cases h : m.data.length = 0
  · rw [dif_pos h]
    exact ⟨by simp [h], fun ts hts => by simp at hts⟩
  · rw [dif_neg h]
    refine ⟨by simp [h], ?_⟩
    intro ts hts
    simp only [Except.ok.injEq] at hts
    subst hts
    refine ⟨by simp, ?_⟩
    intro t ht
    simp only [List.mem_map, List.mem_range] at ht
    obtain ⟨i, -, rfl⟩ := ht
    exact List.get_mem _ _ _

/-- Witness for C9: a one-element memory sampled twice with replacement. -/
theorem sample_batch_membership_witness :
    ([(⟨[1], [0], 5, [2], false⟩ : Transition),
      ⟨[1], [0], 5, [2], false⟩].length = 2 ∧
     ∀ t ∈ [(⟨[1], [0], 5, [2], false⟩ : Transition), ⟨[1], [0], 5, [2], false⟩],
       t ∈ (⟨3, [⟨[1], [0], 5, [2], false⟩]⟩ : ReplayBuffer).data) :=
  (sample_batch_error_and_membership ⟨3, [⟨[1], [0], 5, [2], false⟩]⟩ 2
    (fun _ => 0)).2 [⟨[1], [0], 5, [2], false⟩, ⟨[1], [0], 5, [2], false⟩] (by rfl)

/-- Decomposition of membership in a `zipWith`. -/
lemma exists_of_mem_zipWith {α β γ : Type} {f : α → β → γ} :
    ∀ {l₁ : List α} {l₂ : List β} {c : γ}, c ∈ List.zipWith f l₁ l₂ →
      ∃ x ∈ l₁, ∃ y ∈ l₂, c = f x y := by
  intro l₁
  induction l₁ with
  | nil => intro l₂ c hc; simp at hc
  | cons x l₁ ih =>
    intro l₂ c hc
    cases l₂ with
    | nil => simp at hc
    | cons y l₂ =>
      rcases List.mem_cons.mp hc with h | h
      · exact ⟨x, List.mem_cons_self x l₁, y, List.mem_cons_self y l₂, h⟩
      · obtain ⟨x', hx', y', hy', rfl⟩ := ih h
        exact ⟨x', List.mem_cons_of_mem x hx', y', List.mem_cons_of_mem y hy', rfl⟩

/-- A parameter group reached by the gradient of a batch mean is reached
by some summand. -/
lemma mem_meanBatch_deps {g : ParamGroup} :
    ∀ {l : List TScalar}, g ∈ (TScalar.meanBatch l).deps →
      ∃ a ∈ l, g ∈ a.deps := by
  intro l
  induction l with
  | nil => intro h; simp [TScalar.meanBatch] at h
  | cons a l ih =>
    intro h
    rcases List.mem_append.mp (by simpa [TScalar.meanBatch] using h) with h' | h'
    · exact ⟨a, List.mem_cons_self a l, h'⟩
    · obtain ⟨a', ha', hg⟩ := ih (by simp [TScalar.meanBatch, h'])
      exact ⟨a', List.mem_cons_of_mem a ha', hg⟩

/-- Every parameter group reached by the gradient of the critic loss in
`update_policy` is the online critic's: the detached target cuts every
path into the target networks. -/
lemma critic_loss_deps_only_critic (a : DDPG)
    (actor_f actor_target_f : List ℚ → List ℚ)
    (critic_f critic_target_f : List ℚ → List ℚ → ℚ) (b : Batch) :
    ∀ g ∈ (a.update_policy actor_f actor_target_f critic_f critic_target_f
        b).critic_loss.deps, g = ParamGroup.critic := by
  intro g hg
  obtain ⟨e, he, hge⟩ := mem_meanBatch_deps hg
  obtain ⟨q, hq, y, -, rfl⟩ := exists_of_mem_zipWith he
  obtain ⟨s, -, act, -, rfl⟩ := exists_of_mem_zipWith hq
  simp [TScalar.mul, TScalar.sub, TScalar.detach, applyCriticNet,
    TVec.const] at hge
  exact hge

/-- Pushing `TScalar.val` through the target-value batch construction. -/
lemma map_val_target_q (γ : ℚ) (h : List ℚ → TScalar) (g : List ℚ → ℚ)
    (hv : ∀ s, (h s).val = g s) :
    ∀ (rs : List ℚ) (tl : List Bool) (ss : List (List ℚ)),
    (List.zipWith (fun (r : ℚ) (p : Bool × TScalar) =>
        (TScalar.const r).add
          (((TScalar.const γ).mul (TScalar.const (1 - boolToQ p.1))).mul p.2))
      rs (tl.zip (ss.map h))).map TScalar.val =
    List.zipWith (fun (r : ℚ) (p : Bool × List ℚ) =>
        r + γ * (1 - boolToQ p.1) * g p.2) rs (tl.zip ss) := by
  intro rs
  induction rs with
  | nil => intro tl ss; rfl
  | cons r rs ih =>
    intro tl ss
    cases tl with
    | nil => rfl
    | cons t tl =>
      cases ss with
      | nil => rfl
      | cons s ss =>
        simp only [List.map_cons, List.zip_cons_cons, List.zipWith_cons_cons]
        refine congrArg₂ List.cons ?_ (ih tl ss)
        simp only [TScalar.add, TScalar.mul, TScalar.const, hv]

/-- C7: in every `update_policy` call, the learning target for the
sampled batch is `y = r + discount·(1−d)·critic_target(s′, actor_target(s′))`
valuewise; the critic-loss gradient reaches neither the critic-target nor
the actor-target parameter group (the target is detached, so it is a
constant in the critic loss); and the call ends by soft-updating both
target parameter vectors with `tau`. -/
theorem update_policy_target_formula_and_sync (a : DDPG)
    (actor_f actor_target_f : List ℚ → List ℚ)
    (critic_f critic_target_f : List ℚ → List ℚ → ℚ) (b : Batch) :
    ((a.update_policy actor_f actor_target_f critic_f critic_target_f
        b).target_q_batch.map TScalar.val =
      List.zipWith (fun (r : ℚ) (p : Bool × List ℚ) =>
          r + a.discount * (1 - boolToQ p.1) *
            critic_target_f p.2 (actor_target_f p.2))
        b.reward_batch (b.terminal_batch.zip b.next_state_batch)) ∧
    ParamGroup.criticTarget ∉
      (a.update_policy actor_f actor_target_f critic_f critic_target_f
        b).critic_loss.deps ∧
    ParamGroup.actorTarget ∉
      (a.update_policy actor_f actor_target_f critic_f critic_target_f
        b).critic_loss.deps ∧
    (a.update_policy actor_f actor_target_f critic_f critic_target_f
        b).actor_target_params =
      soft_update a.actor_target_params a.actor_params a.tau ∧
    (a.update_policy actor_f actor_target_f critic_f critic_target_f
        b).critic_target_params =
      soft_update a.critic_target_params a.critic_params a.tau := by
  refine ⟨?_, ?_, ?_, rfl, rfl⟩
  · exact map_val_target_q a.discount
      (fun s' => applyCriticNet .criticTarget critic_target_f (TVec.const s')
        (applyActorNet .actorTarget actor_target_f (TVec.const s')))
      (fun s' => critic_target_f s' (actor_target_f s'))
      (fun _ => rfl) b.reward_batch b.terminal_batch b.next_state_batch
  · intro hmem
    exact absurd (critic_loss_deps_only_critic a actor_f actor_target_f
      critic_f critic_target_f b _ hmem) (by decide)
  · intro hmem
    exact absurd (critic_loss_deps_only_critic a actor_f actor_target_f
      critic_f critic_target_f b _ hmem) (by decide)

/-- Witness for C7 on a concrete agent, concrete (opaque) network maps and
a concrete one-element batch. -/
theorem update_policy_target_formula_witness :
    ((DDPG.init false 4 10 (1/100) (1/2)).update_policy id id
        (fun s act => s.sum + act.sum) (fun s act => s.sum * act.sum)
        ⟨[[1]], [[2]], [3], [[4]], [false]⟩).target_q_batch.map TScalar.val =
      List.zipWith (fun (r : ℚ) (p : Bool × List ℚ) =>
          r + (DDPG.init false 4 10 (1/100) (1/2)).discount * (1 - boolToQ p.1) *
            (fun s act => s.sum * act.sum) p.2 (id p.2))
        [3] ([false].zip [[4]]) :=
  (update_policy_target_formula_and_sync (DDPG.init false 4 10 (1/100) (1/2))
    id id (fun s act => s.sum + act.sum) (fun s act => s.sum * act.sum)
    ⟨[[1]], [[2]], [3], [[4]], [false]⟩).1

end DDPGCore
